import Mathlib

set_option maxRecDepth 4000

/-!
Shallow embedding of GRest 2.1.1 (src/GRest.js): a REST client wrapper with a
client class GRest (extending the external GObservable), per-resource
GRestEndpoint objects, and GRestRequest wrappers around the axios transport.
JavaScript values are modelled by JSVal, JavaScript objects by association
lists with insertion-order update semantics, and the axios transport together
with observer fan-out and callback invocation by an explicit event trace.
-/

/-- A JavaScript value, as far as this library manipulates them. -/
inductive JSVal where
  | undefined
  | null
  | bool (b : Bool)
  | num (n : Int)
  | str (s : String)
  | obj (fields : List (String × JSVal))

/-- JavaScript truthiness: undefined, null, false, 0 and the empty string are
falsy; objects are always truthy. -/
def truthy : JSVal → Bool
  | .undefined => false
  | .null => false
  | .bool b => b
  | .num n => n != 0
  | .str s => s != ""
  | .obj _ => true

/-- The JavaScript typeof operator on the modelled values; note
typeof null is "object". -/
def jsTypeof : JSVal → String
  | .undefined => "undefined"
  | .null => "object"
  | .bool _ => "boolean"
  | .num _ => "number"
  | .str _ => "string"
  | .obj _ => "object"

/-- JavaScript string coercion as used by url += queryString
(only reached for non-object, non-undefined values). -/
def jsToString : JSVal → String
  | .undefined => "undefined"
  | .null => "null"
  | .bool b => if b then "true" else "false"
  | .num n => toString n
  | .str s => s
  | .obj _ => "[object Object]"

/-- The header-removal test of GRest.headers (lines 76-79):
typeof value == 'undefined' || value == null, where the loose == null
holds exactly for null and undefined. -/
def isNullOrUndef : JSVal → Bool
  | .undefined => true
  | .null => true
  | _ => false

/-- A JavaScript object as an association list in insertion order. -/
abbrev JSObj := List (String × JSVal)

/-- Property read on an association list (first entry with the key; keys are
unique for objects built by the modelled operations). -/
def alGet {α : Type} : List (String × α) → String → Option α
  | [], _ => none
  | (k', v) :: rest, k => if k' = k then some v else alGet rest k

/-- Property write: updates an existing key in place (JS objects keep the
original insertion position) or appends a new entry. -/
def alSet {α : Type} : List (String × α) → String → α → List (String × α)
  | [], k, v => [(k, v)]
  | (k', v') :: rest, k, v =>
    if k' = k then (k, v) :: rest else (k', v') :: alSet rest k v

/-- Whether the object has an entry for the key. -/
def alHasKey {α : Type} : List (String × α) → String → Bool
  | [], _ => false
  | (k', _) :: rest, k => if k' = k then true else alHasKey rest k

/-- Keys are pairwise distinct, as for any genuine JavaScript object. -/
def alNodup {α : Type} : List (String × α) → Bool
  | [] => true
  | (k, _) :: rest => !alHasKey rest k && alNodup rest

/-- Property read yielding undefined for an absent key, as in JavaScript. -/
def jsGet (o : JSObj) (k : String) : JSVal :=
  (alGet o k).getD JSVal.undefined

/-- Object.assign target src: copies every enumerable entry of src onto
target, in order. -/
def jsAssign {α : Type} (target src : List (String × α)) : List (String × α) :=
  src.foldl (fun acc kv => alSet acc kv.1 kv.2) target

/-- A JavaScript word character, the \w class: ASCII letters, digits and
underscore. -/
def isWordChar (c : Char) : Bool :=
  c.isAlpha || c.isDigit || c = '_'

/-- Splits a string at every single non-word character, keeping empty
segments, exactly as String.prototype.split with the regex \W does. -/
def splitNonWordAux : List Char → List Char → List String
  | [], acc => [String.mk acc.reverse]
  | c :: cs, acc =>
    if isWordChar c then splitNonWordAux cs (c :: acc)
    else String.mk acc.reverse :: splitNonWordAux cs []

def splitNonWord (s : String) : List String :=
  splitNonWordAux s.data []

/-- String.prototype.toLowerCase for the ASCII endpoint names this library
works with. -/
def jsToLower (s : String) : String :=
  String.mk (s.data.map Char.toLower)

/-- charAt(0).toUpperCase() + slice(1): capitalises the first character,
yielding the empty string on an empty segment. -/
def capFirst (s : String) : String :=
  match s.data with
  | [] => ""
  | c :: cs => String.mk (c.toUpper :: cs)

/-- The accessor-key transform of GRest.endpoints (src/GRest.js lines 56-58):
endpoint.toLowerCase().split(/\W/).map((e, i) => i == 0 ? e :
e.charAt(0).toUpperCase() + e.slice(1)).join(""). -/
def camelCase (name : String) : String :=
  match splitNonWord (jsToLower name) with
  | [] => ""
  | first :: rest => first ++ String.join (rest.map capFirst)

/-- url.replace of the trailing-slash regex in the GRest constructor
(line 27): strip every trailing slash, then append exactly one. -/
def normalizeUrl (u : String) : String :=
  String.mk ((u.data.reverse.dropWhile (fun c => c = '/')).reverse) ++ "/"

/-- One GRestEndpoint instance (src/GRest.js lines 104-108).  The source
constructor stores the raw name, the back-reference _api and the resolved
_url; the back-reference is modelled by passing the current GRest state to
every operation that reads it, and the field id is a model device giving
each `new GRestEndpoint` a distinct identity. -/
structure GRestEndpoint where
  id : Nat
  name : String
  _url : String
deriving DecidableEq

/-- Possible results of a property read on a GRestEndpoint object: its own
properties are exactly name, _api and _url (set in the constructor, lines
104-108); any other key, in particular "api", reads as undefined. -/
inductive GRestEndpointProp where
  | str (s : String)
  | apiRef
  | undefined

def GRestEndpoint.getProp (e : GRestEndpoint) (k : String) : GRestEndpointProp :=
  if k = "name" then .str e.name
  else if k = "_api" then .apiRef
  else if k = "_url" then .str e._url
  else .undefined

/-- The GRest client state (src/GRest.js lines 18-93).  props models the
dynamically attached endpoint accessor properties; observers models the
subscriber list of the inherited external GObservable (spec section 6:
subscribe registers a handler, notify fans out synchronously to all
subscribers); nextId is the model's counter for `new GRestEndpoint`
identities. -/
structure GRest where
  url : String
  authorization : JSVal
  _endpoints : List String
  _headers : JSObj
  props : List (String × GRestEndpoint)
  observers : List String
  nextId : Nat

/-- The GRest constructor (lines 20-29). -/
def GRest.construct (url : String) (authorization : JSVal) : GRest :=
  { url := normalizeUrl url
    authorization := authorization
    _endpoints := []
    _headers := []
    props := []
    observers := []
    nextId := 0 }

/-- Modelled from the spec: GObservable subscribe/setObserver registers a
callback to receive every notified message (spec sections 4.1 and 6; the
GObservable class itself is an external dependency, not part of this
repository's sources). -/
def GRest.setObserver (s : GRest) (oid : String) : GRest :=
  { s with observers := s.observers ++ [oid] }

/-- Truthiness of the property lookup _this[endpoint] in GRest.endpoints
(line 53): an attached endpoint accessor is a truthy object; the instance
fields url (a nonempty string), _endpoints and _headers (objects) and the
class methods are truthy; authorization is truthy according to its value;
any other key reads as undefined, hence falsy. -/
def GRest.hasTruthyProp (s : GRest) (k : String) : Bool :=
  (alGet s.props k).isSome
  || (["url", "_endpoints", "_headers", "endpoints", "headers", "release",
       "setObserver", "notify", "constructor", "toString",
       "hasOwnProperty"].contains k)
  || (if k = "authorization" then truthy s.authorization else false)

/-- Array.from(new Set(a.concat(b))): concatenation with duplicates removed,
first occurrence kept, order preserved. -/
def dedupConcat (a b : List String) : List String :=
  (a ++ b).foldl (fun acc x => if acc.contains x then acc else acc ++ [x]) []

/-- GRest.endpoints in set mode (lines 40-64): records the deduplicated name
list, then for every name in the list whose raw name is not already a truthy
property of the client, binds a new GRestEndpoint under the camelCase key.
Note the dupe check tests the raw name while the accessor is stored under
the camelCase key. -/
def GRest.endpointsSet (s : GRest) (list : List String) : GRest :=
  let s1 : GRest := { s with _endpoints := dedupConcat s._endpoints list }
  list.foldl
    (fun st ep =>
      if st.hasTruthyProp ep then st
      else
        { st with
          props := alSet st.props (camelCase ep)
            ⟨st.nextId, ep, st.url ++ ep ++ "/"⟩
          nextId := st.nextId + 1 })
    s1

/-- The set-mode body of GRest.headers (lines 66-82): Object.assign the map
onto the stored headers, then delete every entry whose value is null or
undefined. -/
def headersMerge (h m : JSObj) : JSObj :=
  (jsAssign h m).filter (fun kv => !isNullOrUndef kv.2)

/-- GRest.headers in set mode, acting on the client state. -/
def GRest.headersSet (s : GRest) (m : JSObj) : GRest :=
  { s with _headers := headersMerge s._headers m }

/-- A caller-supplied axios configuration object, as GRestEndpoint.http and
the verb shorthands build or receive it: an optional url (always
overwritten), an optional body (undefined when absent), optional headers and
optional params. -/
structure AxiosCnf where
  method : String
  url : Option String
  data : JSVal
  headers : Option JSObj
  params : Option JSVal

/-- The request configuration as dispatched to axios after
GRestEndpoint.http has filled it in: params is none when the field was never
assigned and some v when it was assigned v (v may be null). -/
structure Config where
  method : String
  url : String
  data : JSVal
  headers : JSObj
  params : Option JSVal
  endpoint : Option String

/-- The header merge of GRestEndpoint.http (line 122): Object.assign onto a
fresh empty object of the client's global headers, then of the
caller-supplied headers, so the caller wins per key and the global object is
never written to. -/
def mergeHeaders (g ch : JSObj) : JSObj :=
  jsAssign (jsAssign [] g) ch

/-- The merged headers after the forced identification header (line 126) and
before the Authorization auto-injection. -/
def mergedPreAuth (api : GRest) (cnf : AxiosCnf) : JSObj :=
  alSet (mergeHeaders api._headers (cnf.headers.getD []))
    "X-Requested-With" (.str "XMLHttpRequest")

/-- The configuration-building body of GRestEndpoint.http (lines 115-149):
header merge, forced X-Requested-With, Authorization auto-injection when the
client's authorization is truthy and the merged Authorization entry is
falsy, forced url, and queryString handling (object: assigned to params,
null included; any other defined value: appended to the url). -/
def httpCore (api : GRest) (e : GRestEndpoint) (cnf : AxiosCnf)
    (queryString : JSVal) : Config :=
  let headers1 := mergedPreAuth api cnf
  let headers2 :=
    if truthy api.authorization && !truthy (jsGet headers1 "Authorization")
    then alSet headers1 "Authorization" api.authorization
    else headers1
  let pu : Option JSVal × String :=
    if jsTypeof queryString = "object" then (some queryString, e._url)
    else if jsTypeof queryString ≠ "undefined" then
      (cnf.params, e._url ++ jsToString queryString)
    else (cnf.params, e._url)
  { method := cnf.method
    url := pu.2
    data := cnf.data
    headers := headers2
    params := pu.1
    endpoint := some e.name }

/-- The key/value query parameters a config's params field carries: an
absent or null params field carries none; an object's entries are the
parameters. -/
def Config.queryParams (c : Config) : JSObj :=
  match c.params with
  | some (.obj o) => o
  | _ => []

/-- A user callback registered through ok or fail, identified by id;
throws records whether invoking it raises an exception. -/
structure Cb where
  id : Nat
  throws : Bool
deriving DecidableEq

/-- The lifecycle message sent to observers (GRestRequest doc, lines
235-240). -/
structure ObsMsg where
  endpoint : JSVal
  method : String
  status : String

/-- Observable side effects of the request machinery: a transport dispatch,
a message delivery to one subscribed observer, a success or failure
callback invocation, the console.log of a caught callback exception, and an
exception escaping into the transport's promise chain. -/
inductive Event where
  | transportCall (cfg : Config)
  | delivered (observerId : String) (msg : ObsMsg)
  | invokedOk (cbId : Nat) (data : JSVal) (status : Nat) (headers : JSObj)
  | invokedFail (cbId : Nat) (err : JSObj)
  | logged
  | uncaught

/-- GRestRequest state (src/GRest.js lines 242-337): the stored axios
config, the observable reference received in the constructor (none models
the undefined reference), the precomputed observer message fields, the
cached result and error, and the two pending callback queues. -/
structure GRestRequest where
  _axios : Config
  _observable : Option (List String)
  msgEndpoint : JSVal
  msgMethod : String
  _res : Option (JSVal × Nat × JSObj)
  _err : Option JSObj
  _onOk : List Cb
  _onErr : List Cb

/-- GRestRequest._notify (lines 331-336): when the observable reference is
truthy, set the message status and fan the message out to every subscriber
(fan-out modelled from the spec's observable contract, section 6); when the
reference is undefined, nothing happens. -/
def notifyEvs (r : GRestRequest) (status : String) : List Event :=
  match r._observable with
  | some obs => obs.map (fun oid => .delivered oid ⟨r.msgEndpoint, r.msgMethod, status⟩)
  | none => []

/-- The synchronous part of GRestRequest.again (lines 259-268): notify
pending, clear the cached result, error and both callback queues, and
dispatch the stored config to axios. -/
def GRestRequest.againStart (r : GRestRequest) : GRestRequest × List Event :=
  ({ r with _res := none, _err := none, _onOk := [], _onErr := [] },
    notifyEvs r "pending" ++ [.transportCall r._axios])

/-- The GRestRequest constructor (lines 244-254): store the config and
observable, precompute the observer message (endpoint || null, method), and
run again() immediately. -/
def GRestRequest.make (cfg : Config) (observable : Option (List String)) :
    GRestRequest × List Event :=
  GRestRequest.againStart
    { _axios := cfg
      _observable := observable
      msgEndpoint :=
        match cfg.endpoint with
        | some n => if n = "" then .null else .str n
        | none => .null
      msgMethod := cfg.method
      _res := none
      _err := none
      _onOk := []
      _onErr := [] }

/-- forEach over a callback queue: invokes callbacks in order until one
throws; returns the ids invoked (the thrower included) and whether an
exception escaped the loop. -/
def runCbs : List Cb → List Nat × Bool
  | [] => ([], false)
  | c :: rest =>
    if c.throws then ([c.id], true)
    else
      let p := runCbs rest
      (c.id :: p.1, p.2)

/-- The transport-success handler of again (lines 269-287): store the
normalized result, invoke the queued success callbacks inside one shared
try/catch that logs an escaping exception, unconditionally clear the queue,
then notify ok. -/
def GRestRequest.resolveOk (r : GRestRequest) (d : JSVal) (st : Nat)
    (hs : JSObj) : GRestRequest × List Event :=
  let r1 := { r with _res := some (d, st, hs) }
  let p := runCbs r1._onOk
  ({ r1 with _onOk := [] },
    p.1.map (fun i => Event.invokedOk i d st hs)
      ++ (if p.2 then [Event.logged] else [])
      ++ notifyEvs r1 "ok")

/-- The error object handed to the transport-failure handler: the
underlying error's message and the optional HTTP response. -/
structure AxiosErrResponse where
  statusText : JSVal
  status : JSVal
  data : JSVal
  headers : JSVal

structure AxiosErr where
  message : JSVal
  response : Option AxiosErrResponse

/-- Error normalization in the catch handler (lines 290-304): message is
e.message or the network-error fallback; when a response exists the message
becomes its statusText or "Error" and data, status and headers are copied
over. -/
def normalizeErr (e : AxiosErr) : JSObj :=
  let err : JSObj :=
    [("message", if truthy e.message then e.message else .str "Network Error")]
  match e.response with
  | none => err
  | some resp =>
    let err := alSet err "message"
      (if truthy resp.statusText then resp.statusText else .str "Error")
    let err := alSet err "data" resp.data
    let err := alSet err "status" resp.status
    alSet err "headers" resp.headers

/-- The transport-failure handler of again (lines 288-313): store the
normalized error, invoke the queued failure callbacks with no try/catch,
then clear the queue and notify fail.  When a callback throws, the
exception escapes into the promise chain: the queue is not cleared and no
fail notification is sent. -/
def GRestRequest.resolveFail (r : GRestRequest) (e : AxiosErr) :
    GRestRequest × List Event :=
  let err := normalizeErr e
  let r1 := { r with _err := some err }
  let p := runCbs r1._onErr
  if p.2 then
    (r1, p.1.map (fun i => Event.invokedFail i err) ++ [Event.uncaught])
  else
    ({ r1 with _onErr := [] },
      p.1.map (fun i => Event.invokedFail i err) ++ notifyEvs r1 "fail")

/-- GRestRequest.ok (lines 319-323): with a cached result, invoke the
callback immediately (an exception it raises propagates to the caller);
without one, enqueue it.  Returns the request itself. -/
def GRestRequest.ok (r : GRestRequest) (f : Cb) :
    Except Unit GRestRequest × List Event :=
  match r._res with
  | some (d, st, hs) =>
    ((if f.throws then .error () else .ok r), [.invokedOk f.id d st hs])
  | none => (.ok { r with _onOk := r._onOk ++ [f] }, [])

/-- GRestRequest.fail (lines 325-329), symmetric to ok with the cached
error. -/
def GRestRequest.fail (r : GRestRequest) (f : Cb) :
    Except Unit GRestRequest × List Event :=
  match r._err with
  | some err =>
    ((if f.throws then .error () else .ok r), [.invokedFail f.id err])
  | none => (.ok { r with _onErr := r._onErr ++ [f] }, [])

/-- The chained JavaScript expression r.ok(f).ok(g). -/
def okChain (r : GRestRequest) (f g : Cb) :
    Except Unit GRestRequest × List Event :=
  match GRestRequest.ok r f with
  | (.ok r1, ev1) =>
    let p := GRestRequest.ok r1 g
    (p.1, ev1 ++ p.2)
  | (.error u, ev1) => (.error u, ev1)

/-- GRestEndpoint.http (lines 115-154): builds the dispatched configuration
and constructs the GRestRequest.  Line 153 passes `this.api` as the
observable; a GRestEndpoint's own properties are name, _api and _url only,
so the value passed is undefined, modelled by none. -/
def GRestEndpoint.http (api : GRest) (e : GRestEndpoint) (cnf : AxiosCnf)
    (queryString : JSVal) : GRest × GRestRequest × List Event :=
  let cfg := httpCore api e cnf queryString
  let observable : Option (List String) :=
    match e.getProp "api" with
    | .apiRef => some api.observers
    | _ => none
  let p := GRestRequest.make cfg observable
  (api, p.1, p.2)

/-- GRestEndpoint._getDel (lines 191-193). -/
def GRestEndpoint._getDel (api : GRest) (e : GRestEndpoint) (method : String)
    (queryString : JSVal) : GRest × GRestRequest × List Event :=
  GRestEndpoint.http api e
    { method := method, url := none, data := .undefined,
      headers := none, params := none }
    queryString

/-- GRestEndpoint._postPut (lines 196-202): when the second argument is
falsy, the first argument becomes the body and the query slot becomes
null. -/
def GRestEndpoint._postPut (api : GRest) (e : GRestEndpoint) (method : String)
    (queryStringOrData data : JSVal) : GRest × GRestRequest × List Event :=
  let p : JSVal × JSVal :=
    if !truthy data then (queryStringOrData, JSVal.null)
    else (data, queryStringOrData)
  GRestEndpoint.http api e
    { method := method, url := none, data := p.1,
      headers := none, params := none }
    p.2

/-- GRestEndpoint.get (lines 160-162). -/
def GRestEndpoint.get (api : GRest) (e : GRestEndpoint) (queryString : JSVal) :
    GRest × GRestRequest × List Event :=
  GRestEndpoint._getDel api e "get" queryString

/-- GRestEndpoint.post (lines 169-171). -/
def GRestEndpoint.post (api : GRest) (e : GRestEndpoint)
    (queryStringOrData data : JSVal) : GRest × GRestRequest × List Event :=
  GRestEndpoint._postPut api e "post" queryStringOrData data

/-- GRestEndpoint.put (lines 178-180). -/
def GRestEndpoint.put (api : GRest) (e : GRestEndpoint)
    (queryStringOrData data : JSVal) : GRest × GRestRequest × List Event :=
  GRestEndpoint._postPut api e "put" queryStringOrData data

/-- The request a dispatch pipeline produced. -/
def requestOf (p : GRest × GRestRequest × List Event) : GRestRequest := p.2.1

/-- The events a dispatch pipeline produced. -/
def eventsOf (p : GRest × GRestRequest × List Event) : List Event := p.2.2

def Event.isDelivered : Event → Bool
  | .delivered .. => true
  | _ => false

def Event.isTransport : Event → Bool
  | .transportCall _ => true
  | _ => false

/-- The ids of the callbacks an event trace records as invoked. -/
def invokedIds (evs : List Event) : List Nat :=
  evs.filterMap fun ev =>
    match ev with
    | .invokedOk i _ _ _ => some i
    | .invokedFail i _ => some i
    | _ => none

/-- A client of the scenario base URL with no authorization. -/
def apiNet : GRest := GRest.construct "https://api.net" JSVal.undefined

/-- A client with authorization "Bearer X", endpoint "users" registered and
one observer subscribed. -/
def apiAuth : GRest :=
  GRest.setObserver
    (GRest.endpointsSet (GRest.construct "https://api.net" (.str "Bearer X"))
      ["users"])
    "obs1"

/-- The users endpoint accessor of apiAuth. -/
def epUsers : GRestEndpoint := (alGet apiAuth.props "users").getD ⟨0, "", ""⟩

/-- The bare axios config _getDel builds for a get call. -/
def cnfGetPlain : AxiosCnf :=
  { method := "get", url := none, data := .undefined, headers := none,
    params := none }

/-- A get config whose caller supplied an explicit empty-string Authorization
header. -/
def cnfEmptyAuth : AxiosCnf :=
  { method := "get", url := none, data := .undefined,
    headers := some [("Authorization", .str "")], params := none }

/-- A get config with an empty caller headers object. -/
def cnfEmptyHdrs : AxiosCnf :=
  { method := "get", url := none, data := .undefined, headers := some [],
    params := none }

/-- A get config whose caller supplied a truthy Authorization header. -/
def cnfTok : AxiosCnf :=
  { method := "get", url := none, data := .undefined,
    headers := some [("Authorization", .str "tok")], params := none }

/-- The full observable trace of apiAuth.users.get() followed by a transport
success: the constructor events (pending notification, dispatch) then the
success resolution. -/
def eventsC1 : List Event :=
  let p := GRestEndpoint.get apiAuth epUsers .undefined
  p.2.2 ++ (GRestRequest.resolveOk p.2.1 (.str "d") 200 []).2

/-- apiNet after registering "auth/login" once. -/
def apiC3a : GRest := GRest.endpointsSet apiNet ["auth/login"]

/-- apiC3a after registering "auth/login" a second time. -/
def apiC3b : GRest := GRest.endpointsSet apiC3a ["auth/login"]

/-- apiNet after registering "users" and then "USERS", two distinct raw names
normalizing to the same accessor key "users". -/
def apiC4 : GRest :=
  GRest.endpointsSet (GRest.endpointsSet apiNet ["users"]) ["USERS"]

/-- apiNet with endpoint "auth/login" registered (the claim C5 scenario). -/
def apiC5 : GRest := GRest.endpointsSet apiNet ["auth/login"]

def epAuthLogin : GRestEndpoint :=
  (alGet apiC5.props "authLogin").getD ⟨0, "", ""⟩

def bodyC5 : JSVal := .obj [("email", .str "ann@api.net"), ("pass", .str "pw1")]

/-- The configuration dispatched by apiC5.authLogin.post(bodyC5). -/
def cfgC5 : Config :=
  (requestOf (GRestEndpoint.post apiC5 epAuthLogin bodyC5 .undefined))._axios

/-- apiNet after setting and then null-removing the global header
X-Requested-With, with "users" registered. -/
def apiC6 : GRest :=
  GRest.endpointsSet
    (GRest.headersSet
      (GRest.headersSet apiNet [("X-Requested-With", .str "v")])
      [("X-Requested-With", .null)])
    ["users"]

def epC6 : GRestEndpoint := (alGet apiC6.props "users").getD ⟨0, "", ""⟩

/-- A concrete dispatched configuration for building requests directly, as a
caller of the public GRestRequest constructor would. -/
def cfgUsers : Config :=
  { method := "get", url := "https://api.net/users/", data := .undefined,
    headers := [("X-Requested-With", .str "XMLHttpRequest")], params := none,
    endpoint := some "users" }

/-- A pending request with a real observable and two queued success
callbacks, the first of which throws. -/
def reqC7ok : GRestRequest :=
  { _axios := cfgUsers, _observable := some ["obs1"],
    msgEndpoint := .str "users", msgMethod := "get", _res := none,
    _err := none, _onOk := [⟨10, true⟩, ⟨11, false⟩], _onErr := [] }

/-- The symmetric pending request with two queued failure callbacks, the
first of which throws. -/
def reqC7fail : GRestRequest :=
  { reqC7ok with _onOk := [], _onErr := [⟨10, true⟩, ⟨11, false⟩] }

def errBoom : AxiosErr := { message := .str "boom", response := none }

/-- A request whose first execution has resolved, with cached data. -/
def reqResolved : GRestRequest :=
  (GRestRequest.resolveOk (GRestRequest.make cfgUsers none).1 (.str "d")
    200 []).1

/-- A pending request queuing a well-behaved callback, a throwing one and a
trailing one. -/
def reqC7W : GRestRequest :=
  { reqC7ok with _onOk := [⟨1, false⟩, ⟨2, true⟩, ⟨3, false⟩] }

/-- apiNet with one global header set. -/
def apiHdr : GRest :=
  GRest.headersSet apiNet [("Accept-version", .str "3.2")]

theorem alGet_alSet_same {α : Type} (o : List (String × α)) (k : String) (v : α) :
    alGet (alSet o k v) k = some v := by
  induction o with
  | nil => simp [alSet, alGet]
  | cons hd tl ih =>
    by_cases h : hd.1 = k
    · simp [alSet, alGet, h]
    · simp [alSet, alGet, h, ih]

theorem alGet_alSet_ne {α : Type} (o : List (String × α)) (k' k : String) (v : α)
    (h : k' ≠ k) : alGet (alSet o k' v) k = alGet o k := by
  induction o with
  | nil => simp [alSet, alGet, h]
  | cons hd tl ih =>
    obtain ⟨k0, v0⟩ := hd
    by_cases h2 : k0 = k'
    · subst h2
      simp [alSet, alGet, h]
    · by_cases h3 : k0 = k
      · subst h3
        simp [alSet, alGet, h2]
      · simp [alSet, alGet, h2, h3, ih]

theorem alGet_eq_none_of_not_hasKey {α : Type} (o : List (String × α)) (k : String)
    (h : alHasKey o k = false) : alGet o k = none := by
  induction o with
  | nil => simp [alGet]
  | cons hd tl ih =>
    by_cases h2 : hd.1 = k
    · simp [alHasKey, h2] at h
    · simp [alHasKey, h2] at h
      simp [alGet, h2, ih h]

theorem alHasKey_of_alGet_isSome {α : Type} (o : List (String × α)) (k : String)
    (h : (alGet o k).isSome = true) : alHasKey o k = true := by
  by_cases h2 : alHasKey o k = true
  · exact h2
  · rw [alGet_eq_none_of_not_hasKey o k (by simpa using h2)] at h
    simp at h

theorem alHasKey_alSet {α : Type} (o : List (String × α)) (k k' : String) (v : α) :
    alHasKey (alSet o k v) k' = if k = k' then true else alHasKey o k' := by
  induction o with
  | nil => simp [alSet, alHasKey]
  | cons hd tl ih =>
    obtain ⟨k0, v0⟩ := hd
    by_cases h : k0 = k
    · subst h
      by_cases h2 : k0 = k'
      · simp [alSet, alHasKey, h2]
      · simp [alSet, alHasKey, h2]
    · by_cases h2 : k0 = k'
      · subst h2
        simp [alSet, alHasKey, h]
      · simp [alSet, alHasKey, h, h2, ih]

theorem alNodup_alSet {α : Type} (o : List (String × α)) (k : String) (v : α)
    (h : alNodup o = true) : alNodup (alSet o k v) = true := by
  induction o with
  | nil => simp [alSet, alNodup, alHasKey]
  | cons hd tl ih =>
    obtain ⟨k0, v0⟩ := hd
    simp [alNodup] at h
    by_cases h2 : k0 = k
    · subst h2
      simp [alSet, alNodup, h.1, h.2]
    · simp [alSet, alNodup, h2, alHasKey_alSet, ih h.2]
      constructor
      · intro h3
        exact absurd h3.symm h2
      · exact h.1

theorem alGet_jsAssign_not_hasKey {α : Type} (src : List (String × α)) (k : String)
    (h : alHasKey src k = false) (t : List (String × α)) :
    alGet (jsAssign t src) k = alGet t k := by
  induction src generalizing t with
  | nil => simp [jsAssign]
  | cons hd tl ih =>
    by_cases h2 : hd.1 = k
    · simp [alHasKey, h2] at h
    · simp [alHasKey, h2] at h
      show alGet (jsAssign (alSet t hd.1 hd.2) tl) k = alGet t k
      rw [ih h, alGet_alSet_ne _ _ _ _ h2]

theorem alNodup_jsAssign {α : Type} (src t : List (String × α))
    (ht : alNodup t = true) : alNodup (jsAssign t src) = true := by
  induction src generalizing t with
  | nil => simpa [jsAssign] using ht
  | cons hd tl ih =>
    show alNodup (jsAssign (alSet t hd.1 hd.2) tl) = true
    exact ih _ (alNodup_alSet _ _ _ ht)

theorem alGet_jsAssign {α : Type} (src : List (String × α)) (k : String)
    (h : alNodup src = true) (t : List (String × α)) :
    alGet (jsAssign t src) k =
      if alHasKey src k = true then alGet src k else alGet t k := by
  induction src generalizing t with
  | nil => simp [jsAssign, alHasKey]
  | cons hd tl ih =>
    obtain ⟨k0, v0⟩ := hd
    simp [alNodup] at h
    show alGet (jsAssign (alSet t k0 v0) tl) k = _
    by_cases h3 : k0 = k
    · subst h3
      have hkey : alHasKey tl k0 = false := by simpa using h.1
      rw [ih h.2, hkey]
      simp [alHasKey, alGet, alGet_alSet_same]
    · by_cases h2 : alHasKey tl k = true
      · rw [ih h.2]
        simp [h2, alHasKey, alGet, h3]
      · rw [ih h.2]
        simp only [h2, alHasKey, alGet, h3]
        simp [h2, h3, alGet_alSet_ne _ _ _ _ h3]

theorem alHasKey_filter {α : Type} (o : List (String × α)) (p : String × α → Bool)
    (k : String) (h : alHasKey (List.filter p o) k = true) : alHasKey o k = true := by
  induction o with
  | nil => simpa [List.filter] using h
  | cons hd tl ih =>
    obtain ⟨k0, v0⟩ := hd
    by_cases h2 : k0 = k
    · simp [alHasKey, h2]
    · cases hp : p (k0, v0) with
      | true =>
        simp only [List.filter, hp] at h
        simp [alHasKey, h2] at h
        simp [alHasKey, h2, ih h]
      | false =>
        simp only [List.filter, hp] at h
        simp [alHasKey, h2, ih h]

theorem alGet_filter {α : Type} (o : List (String × α)) (p : String × α → Bool)
    (k : String) (h : alNodup o = true) :
    alGet (o.filter p) k =
      match alGet o k with
      | some v => if p (k, v) = true then some v else none
      | none => none := by
  induction o with
  | nil => simp [alGet]
  | cons hd tl ih =>
    obtain ⟨k0, v0⟩ := hd
    simp [alNodup] at h
    have htl := ih h.2
    cases hp : p (k0, v0) with
    | true =>
      by_cases h2 : k0 = k
      · subst h2
        simp [List.filter, hp, alGet]
      · simp [List.filter, hp, alGet, h2, htl]
    | false =>
      by_cases h2 : k0 = k
      · subst h2
        have hnone : alGet tl k0 = none :=
          alGet_eq_none_of_not_hasKey tl k0 (by simpa using h.1)
        simp [List.filter, hp, alGet, htl, hnone]
      · simp [List.filter, hp, alGet, h2, htl]

theorem alNodup_filter {α : Type} (o : List (String × α)) (p : String × α → Bool)
    (h : alNodup o = true) : alNodup (o.filter p) = true := by
  induction o with
  | nil => simp [alNodup]
  | cons hd tl ih =>
    obtain ⟨k0, v0⟩ := hd
    simp [alNodup] at h
    have htl := ih h.2
    have hkey : alHasKey (List.filter p tl) k0 = false := by
      by_cases h4 : alHasKey (List.filter p tl) k0 = true
      · exact absurd (alHasKey_filter tl p k0 h4) (by simpa using h.1)
      · simpa using h4
    cases hp : p (k0, v0) with
    | true => simp [List.filter, hp, alNodup, hkey, htl]
    | false => simpa [List.filter, hp] using htl

theorem httpCore_headers_eq (api : GRest) (e : GRestEndpoint) (cnf : AxiosCnf)
    (qs : JSVal) :
    (httpCore api e cnf qs).headers =
      if truthy api.authorization
          && !truthy (jsGet (mergedPreAuth api cnf) "Authorization")
      then alSet (mergedPreAuth api cnf) "Authorization" api.authorization
      else mergedPreAuth api cnf := rfl

theorem resolveOk_eq (r : GRestRequest) (d : JSVal) (st : Nat) (hs : JSObj) :
    GRestRequest.resolveOk r d st hs =
      ({ r with _res := some (d, st, hs), _onOk := [] },
        (runCbs r._onOk).1.map (fun i => Event.invokedOk i d st hs)
          ++ (if (runCbs r._onOk).2 then [Event.logged] else [])
          ++ notifyEvs r "ok") := rfl

theorem resolveFail_eq (r : GRestRequest) (e : AxiosErr) :
    GRestRequest.resolveFail r e =
      if (runCbs r._onErr).2 then
        ({ r with _err := some (normalizeErr e) },
          (runCbs r._onErr).1.map
            (fun i => Event.invokedFail i (normalizeErr e))
            ++ [Event.uncaught])
      else
        ({ r with _err := some (normalizeErr e), _onErr := [] },
          (runCbs r._onErr).1.map
            (fun i => Event.invokedFail i (normalizeErr e))
            ++ notifyEvs r "fail") := rfl

theorem runCbs_throwing (pre : List Cb) (c : Cb) (rest : List Cb)
    (hpre : ∀ x ∈ pre, x.throws = false) (hc : c.throws = true) :
    runCbs (pre ++ c :: rest) = (pre.map Cb.id ++ [c.id], true) := by
  induction pre with
  | nil => simp [runCbs, hc]
  | cons x xs ih =>
    have hx : x.throws = false := hpre x (by simp)
    have hxs : ∀ y ∈ xs, y.throws = false := fun y hy => hpre y (by simp [hy])
    simp [runCbs, hx, ih hxs]

/-- C1: the claim says every lifecycle transition of a Request created by an
endpoint verb call notifies the owning client's observable and reaches every
subscribed callback.  Evaluating the code: with an observer subscribed, a
get call followed by a transport success dispatches to the transport but
delivers no message to any observer at any transition, because line 153
passes `this.api` (undefined, the field is `_api`) as the request's
observable, so GRestRequest._notify's guard is never taken. -/
theorem C1_observersNeverNotified :
    apiAuth.observers = ["obs1"] ∧
    eventsC1.any Event.isTransport = true ∧
    eventsC1.filter Event.isDelivered = [] ∧
    (requestOf (GRestEndpoint.get apiAuth epUsers .undefined))._observable
      = none :=
  ⟨rfl, rfl, rfl, rfl⟩

/-- C3: the claim says re-registering an already-registered name is a no-op
with the accessor's object identity preserved, including for names with
non-word characters such as "auth/login".  Evaluating the code at that
input: the registered-name list stays deduplicated, but the second
registration constructs a fresh GRestEndpoint (identity 1, a second
construction) and rebinds the authLogin accessor to it, because the dupe
check of line 53 tests the raw name "auth/login" as a property while the
accessor lives under the key "authLogin". -/
theorem C3_reregistrationReplacesEndpoint :
    apiC3a._endpoints = ["auth/login"] ∧
    apiC3b._endpoints = ["auth/login"] ∧
    (alGet apiC3a.props "authLogin").map GRestEndpoint.id = some 0 ∧
    (alGet apiC3b.props "authLogin").map GRestEndpoint.id = some 1 ∧
    apiC3b.nextId = 2 :=
  ⟨rfl, rfl, rfl, rfl, rfl⟩

/-- C4 counterexample: registering "users" and then "USERS" (both normalize
to accessor key "users") leaves the accessor bound to the Endpoint of the
second-registered name, not the first as the claim states. -/
theorem C4_counterexample :
    camelCase "users" = "users" ∧
    camelCase "USERS" = "users" ∧
    (alGet apiC4.props "users").map GRestEndpoint.name = some "USERS" ∧
    ¬ (alGet apiC4.props "users").map GRestEndpoint.name = some "users" :=
  ⟨rfl, rfl, rfl, by decide⟩

/-- C5: the scenario claim.  With base url "https://api.net" and endpoint
"auth/login" registered, the accessor key is "authLogin" and its Endpoint
carries the raw name; post with a single object argument dispatches method
"post", url "https://api.net/auth/login/", the object as body, and no query
parameter pairs (the params field is present but null, carrying none). -/
theorem C5_postScenario :
    (alGet apiC5.props "authLogin").map GRestEndpoint.name = some "auth/login" ∧
    cfgC5.method = "post" ∧
    cfgC5.url = "https://api.net/auth/login/" ∧
    cfgC5.data = bodyC5 ∧
    Config.queryParams cfgC5 = [] ∧
    cfgC5.params = some JSVal.null :=
  ⟨rfl, rfl, rfl, rfl, rfl, rfl⟩

/-- C6 counterexample: for the header key "X-Requested-With", setting it and
then removing it with null does clear it from the client's global headers,
yet it is present (forced to "XMLHttpRequest" by line 126) in the merged
headers of every subsequent request configuration, contradicting the
claim's universal absence statement. -/
theorem C6_counterexample :
    apiC6._headers = [] ∧
    jsGet (httpCore apiC6 epC6 cnfGetPlain .undefined).headers
      "X-Requested-With" = .str "XMLHttpRequest" ∧
    JSVal.str "XMLHttpRequest" ≠ JSVal.undefined :=
  ⟨rfl, rfl, fun h => JSVal.noConfusion h⟩

/-- C7 counterexample: with two queued success callbacks of which the first
throws, the shared try/catch of lines 279-281 stops delivery, so the second
callback is never invoked (only id 10 appears in the trace), contradicting
the claim that remaining queued callbacks still run; the ok notification is
still delivered.  On the failure side (lines 306-311, no try/catch), the
exception escapes into the transport's resolution path, the remaining
callback is skipped, the queue is not cleared and the fail notification is
suppressed. -/
theorem C7_counterexample :
    reqC7ok._onOk = [⟨10, true⟩, ⟨11, false⟩] ∧
    invokedIds (GRestRequest.resolveOk reqC7ok (.str "x") 200 []).2 = [10] ∧
    (GRestRequest.resolveOk reqC7ok (.str "x") 200 []).2.filter
      Event.isDelivered = [.delivered "obs1" ⟨.str "users", "get", "ok"⟩] ∧
    (GRestRequest.resolveFail reqC7fail errBoom).2 =
      [.invokedFail 10 (normalizeErr errBoom), .uncaught] ∧
    (GRestRequest.resolveFail reqC7fail errBoom).2.filter
      Event.isDelivered = [] ∧
    (GRestRequest.resolveFail reqC7fail errBoom).1._onErr =
      [⟨10, true⟩, ⟨11, false⟩] :=
  ⟨rfl, rfl, rfl, rfl, rfl, rfl⟩

/-- C2 counterexample: with client authorization "Bearer X" and a caller
config whose headers carry an explicit Authorization entry with value "",
the dispatched Authorization header is "Bearer X", not the explicit value:
line 129 tests truthiness of the merged entry, not its presence. -/
theorem C2_counterexample :
    jsGet (cnfEmptyAuth.headers.getD []) "Authorization" = JSVal.str "" ∧
    jsGet (httpCore apiAuth epUsers cnfEmptyAuth .undefined).headers
      "Authorization" = JSVal.str "Bearer X" ∧
    JSVal.str "Bearer X" ≠ JSVal.str "" := by
  refine ⟨rfl, rfl, fun h => ?_⟩
  injection h with h2
  exact absurd h2 (by decide)

/-- C8: ok on a resolved Request invokes the callback synchronously with the
cached result (no transport dispatch appears in the events) and returns the
request itself unchanged, so chaining ok(f).ok(g) invokes f then g with the
identical original result; on an unresolved Request ok enqueues; fail is
symmetric with the cached error. -/
theorem C8_cachedDelivery (r : GRestRequest) (f g : Cb) (d : JSVal) (st : Nat)
    (hs : JSObj) (er : JSObj) (hf : f.throws = false) (hg : g.throws = false) :
    (r._res = some (d, st, hs) →
      GRestRequest.ok r f = (.ok r, [.invokedOk f.id d st hs]) ∧
      okChain r f g =
        (.ok r, [.invokedOk f.id d st hs, .invokedOk g.id d st hs])) ∧
    (r._res = none →
      GRestRequest.ok r f = (.ok { r with _onOk := r._onOk ++ [f] }, [])) ∧
    (r._err = some er →
      GRestRequest.fail r f = (.ok r, [.invokedFail f.id er])) ∧
    (r._err = none →
      GRestRequest.fail r f = (.ok { r with _onErr := r._onErr ++ [f] }, [])) := by
  refine ⟨fun h => ?_, fun h => ?_, fun h => ?_, fun h => ?_⟩ <;>
    simp [GRestRequest.ok, GRestRequest.fail, okChain, h, hf, hg]

/-- C8 witness at a concrete resolved request. -/
theorem C8_cachedDelivery_witness :
    reqResolved._res = some (.str "d", 200, []) ∧
    GRestRequest.ok reqResolved ⟨1, false⟩ =
      (.ok reqResolved, [.invokedOk 1 (.str "d") 200 []]) ∧
    okChain reqResolved ⟨1, false⟩ ⟨2, false⟩ =
      (.ok reqResolved,
        [.invokedOk 1 (.str "d") 200 [], .invokedOk 2 (.str "d") 200 []]) :=
  ⟨rfl,
    (C8_cachedDelivery reqResolved ⟨1, false⟩ ⟨2, false⟩ (.str "d") 200 [] []
      rfl rfl).1 rfl⟩

/-- C10: in _postPut (hence in post and put) a falsy second argument makes
the first argument the body and sets the query slot to null, so the
dispatched configuration carries the first argument as data, a
present-but-null params field, and an unchanged url; the falsy second
argument is never sent. -/
theorem C10_falsySecondArg (api : GRest) (e : GRestEndpoint) (method : String)
    (x y : JSVal) (hy : truthy y = false) :
    (requestOf (GRestEndpoint._postPut api e method x y))._axios.data = x ∧
    (requestOf (GRestEndpoint._postPut api e method x y))._axios.params
      = some JSVal.null ∧
    (requestOf (GRestEndpoint._postPut api e method x y))._axios.url
      = e._url := by
  simp [GRestEndpoint._postPut, hy, GRestEndpoint.http, httpCore,
    GRestRequest.make, GRestRequest.againStart, requestOf, jsTypeof]

/-- C10 witness: post(id, 0) sends the id as body and never sends 0. -/
theorem C10_falsySecondArg_witness :
    (requestOf (GRestEndpoint.post apiAuth epUsers (.str "12345")
      (.num 0)))._axios.data = .str "12345" ∧
    (requestOf (GRestEndpoint.post apiAuth epUsers (.str "12345")
      (.num 0)))._axios.params = some JSVal.null ∧
    (requestOf (GRestEndpoint.post apiAuth epUsers (.str "12345")
      (.num 0)))._axios.url = epUsers._url :=
  C10_falsySecondArg apiAuth epUsers "post" (.str "12345") (.num 0) (by decide)

/-- C9: http leaves the client state (in particular its global headers)
unchanged, and the header merge it performs via mergeHeaders builds a fresh
object in which the caller-supplied headers win over the globals per key. -/
theorem C9_globalHeadersUntouched (api : GRest) (e : GRestEndpoint)
    (cnf : AxiosCnf) (qs : JSVal) (ch : JSObj) (k : String)
    (hg : alNodup api._headers = true) (hch : alNodup ch = true) :
    (GRestEndpoint.http api e cnf qs).1 = api ∧
    jsGet (mergeHeaders api._headers ch) k =
      (if alHasKey ch k = true then jsGet ch k else jsGet api._headers k) := by
  constructor
  · rfl
  · rw [mergeHeaders, jsGet, alGet_jsAssign ch k hch]
    by_cases h1 : alHasKey ch k = true
    · simp [h1, jsGet]
    · rw [if_neg (by simpa using h1), alGet_jsAssign api._headers k hg]
      by_cases h2 : alHasKey api._headers k = true
      · simp [h1, h2, jsGet]
      · rw [if_neg (by simpa using h2)]
        simp [h1, h2, jsGet, alGet,
          alGet_eq_none_of_not_hasKey api._headers k (by simpa using h2)]

/-- C9 witness at a concrete client and caller header object. -/
theorem C9_globalHeadersUntouched_witness :
    (GRestEndpoint.http apiHdr epUsers cnfGetPlain .undefined).1 = apiHdr ∧
    jsGet (mergeHeaders apiHdr._headers [("Accept-version", JSVal.str "4.0")])
        "Accept-version" =
      (if alHasKey [("Accept-version", JSVal.str "4.0")] "Accept-version"
          = true
       then jsGet [("Accept-version", JSVal.str "4.0")] "Accept-version"
       else jsGet apiHdr._headers "Accept-version") :=
  C9_globalHeadersUntouched apiHdr epUsers cnfGetPlain .undefined
    [("Accept-version", JSVal.str "4.0")] "Accept-version" (by decide)
    (by decide)

/-- C7 (amended): on transport success an exception thrown by a queued
callback is confined by the shared try/catch (it is logged, the queue is
cleared and the ok notification still goes out) but the callbacks queued
after the thrower are skipped; on transport failure the exception escapes
into the transport's resolution path, the remaining callbacks are skipped,
the queue is not cleared and the fail notification is suppressed. -/
theorem C7_callbackIsolation (r : GRestRequest) (pre : List Cb) (c : Cb)
    (rest : List Cb) (d : JSVal) (st : Nat) (hs : JSObj) (er : AxiosErr)
    (hpre : ∀ x ∈ pre, x.throws = false) (hc : c.throws = true) :
    (r._onOk = pre ++ c :: rest →
      (GRestRequest.resolveOk r d st hs).2 =
        pre.map (fun x => Event.invokedOk x.id d st hs)
          ++ [Event.invokedOk c.id d st hs] ++ [Event.logged]
          ++ notifyEvs r "ok" ∧
      (GRestRequest.resolveOk r d st hs).1._onOk = []) ∧
    (r._onErr = pre ++ c :: rest →
      (GRestRequest.resolveFail r er).2 =
        pre.map (fun x => Event.invokedFail x.id (normalizeErr er))
          ++ [Event.invokedFail c.id (normalizeErr er)] ++ [Event.uncaught] ∧
      (GRestRequest.resolveFail r er).1._onErr = pre ++ c :: rest) := by
  have hrun := runCbs_throwing pre c rest hpre hc
  refine ⟨fun hok => ?_, fun herr => ?_⟩
  · rw [resolveOk_eq, hok, hrun]
    constructor
    · simp [List.map_append]
    · rfl
  · rw [resolveFail_eq, herr, hrun]
    constructor
    · simp [List.map_append]
    · rfl

/-- C7 witness: the success side of the amended statement at a concrete
request with callbacks 1 (well-behaved), 2 (throwing) and 3 (skipped). -/
theorem C7_callbackIsolation_witness :
    (GRestRequest.resolveOk reqC7W (.str "x") 200 []).2 =
      ([⟨1, false⟩] : List Cb).map (fun x => Event.invokedOk x.id (.str "x") 200 [])
        ++ [Event.invokedOk 2 (.str "x") 200 []] ++ [Event.logged]
        ++ notifyEvs reqC7W "ok" ∧
    (GRestRequest.resolveOk reqC7W (.str "x") 200 []).1._onOk = [] :=
  (C7_callbackIsolation reqC7W [⟨1, false⟩] ⟨2, true⟩ [⟨3, false⟩] (.str "x")
    200 [] errBoom (by decide) rfl).1 rfl


/-- C2 (amended): the dispatched Authorization header is the client's
authorization when that is truthy and the merged entry is falsy or absent;
a truthy merged Authorization entry is preserved; in particular a truthy
caller-supplied Authorization value survives the merge and is dispatched,
ignoring the client's authorization for that call. -/
theorem C2_authInjection (api : GRest) (e : GRestEndpoint) (cnf : AxiosCnf)
    (qs : JSVal) (ch : JSObj) :
    (truthy api.authorization = true →
      truthy (jsGet (mergedPreAuth api cnf) "Authorization") = false →
      jsGet (httpCore api e cnf qs).headers "Authorization"
        = api.authorization) ∧
    (truthy (jsGet (mergedPreAuth api cnf) "Authorization") = true →
      jsGet (httpCore api e cnf qs).headers "Authorization"
        = jsGet (mergedPreAuth api cnf) "Authorization") ∧
    (cnf.headers = some ch → alNodup ch = true →
      truthy (jsGet ch "Authorization") = true →
      jsGet (httpCore api e cnf qs).headers "Authorization"
        = jsGet ch "Authorization") := by
  refine ⟨fun hauth hfal => ?_, fun htr => ?_, fun hch hnd htr => ?_⟩
  · rw [jsGet, httpCore_headers_eq, hauth, hfal]
    simp [alGet_alSet_same]
  · rw [jsGet, httpCore_headers_eq, htr]
    simp [jsGet]
  · have hkey : alHasKey ch "Authorization" = true := by
      apply alHasKey_of_alGet_isSome
      cases hg : alGet ch "Authorization" with
      | none =>
        rw [jsGet, hg] at htr
        simp [truthy] at htr
      | some w => simp
    have hXA : ("X-Requested-With" : String) ≠ "Authorization" := by decide
    have e1 : alGet (mergedPreAuth api cnf) "Authorization"
        = alGet ch "Authorization" := by
      rw [mergedPreAuth, hch]
      rw [alGet_alSet_ne _ _ _ _ hXA]
      rw [mergeHeaders]
      simp only [Option.getD_some]
      rw [alGet_jsAssign ch _ hnd]
      simp [hkey]
    have htrm : truthy (jsGet (mergedPreAuth api cnf) "Authorization")
        = true := by
      rw [jsGet, e1]
      rw [jsGet] at htr
      exact htr
    rw [jsGet, httpCore_headers_eq, htrm]
    simp [jsGet, e1]

/-- C2 witness: automatic injection on a plain call, and preservation of a
truthy caller-supplied Authorization value. -/
theorem C2_authInjection_witness :
    jsGet (httpCore apiAuth epUsers cnfGetPlain .undefined).headers
      "Authorization" = apiAuth.authorization ∧
    jsGet (httpCore apiAuth epUsers cnfTok .undefined).headers "Authorization"
      = jsGet [("Authorization", JSVal.str "tok")] "Authorization" :=
  ⟨(C2_authInjection apiAuth epUsers cnfGetPlain .undefined []).1 (by decide)
      (by decide),
    (C2_authInjection apiAuth epUsers cnfTok .undefined
      [("Authorization", JSVal.str "tok")]).2.2 rfl (by decide) (by decide)⟩

/-- C6 (amended): set-mode headers shallow-merges the map and deletes every
entry whose merged value is null or undefined, so setting a key and then
setting it to null removes it from the global headers; consequently the key
is absent from a subsequent dispatched configuration's merged headers
provided the caller does not supply it again, it is not the force-set
X-Requested-With header, and it is not Authorization while the client's
authorization is truthy. -/
theorem C6_headerRemoval (h m ch : JSObj) (K : String) (v : JSVal)
    (api : GRest) (e : GRestEndpoint) (cnf : AxiosCnf) (qs : JSVal)
    (hnd : alNodup h = true) :
    (∀ k, jsGet (headersMerge h m) k =
      (if isNullOrUndef (jsGet (jsAssign h m) k) = true then JSVal.undefined
       else jsGet (jsAssign h m) k)) ∧
    (jsGet (headersMerge (headersMerge h [(K, v)]) [(K, JSVal.null)]) K
      = JSVal.undefined) ∧
    (alHasKey api._headers K = false →
      cnf.headers = some ch →
      alHasKey ch K = false →
      K ≠ "X-Requested-With" →
      (K = "Authorization" → truthy api.authorization = false) →
      jsGet (httpCore api e cnf qs).headers K = JSVal.undefined) := by
  refine ⟨fun k => ?_, ?_, fun hgk hch hchk hKX hKA => ?_⟩
  · have hnA : alNodup (jsAssign h m) = true := alNodup_jsAssign m h hnd
    rw [headersMerge, jsGet, alGet_filter _ _ _ hnA]
    cases halg : alGet (jsAssign h m) k with
    | none => simp [jsGet, halg, isNullOrUndef]
    | some w =>
      rw [jsGet, halg]
      cases hw : isNullOrUndef w with
      | true => simp [hw]
      | false => simp [hw]
  · have hnd1 : alNodup (headersMerge h [(K, v)]) = true :=
      alNodup_filter _ _ (alNodup_jsAssign _ _ hnd)
    have hassign :
        alGet (jsAssign (headersMerge h [(K, v)]) [(K, JSVal.null)]) K
          = some JSVal.null := by
      show alGet (alSet (headersMerge h [(K, v)]) K JSVal.null) K = _
      exact alGet_alSet_same _ _ _
    rw [headersMerge, jsGet, alGet_filter _ _ _ (alNodup_jsAssign _ _ hnd1)]
    rw [hassign]
    simp [isNullOrUndef]
  · have hm : alGet (mergedPreAuth api cnf) K = none := by
      rw [mergedPreAuth, hch]
      rw [alGet_alSet_ne _ _ _ _ (Ne.symm hKX)]
      rw [mergeHeaders]
      simp only [Option.getD_some]
      rw [alGet_jsAssign_not_hasKey _ _ hchk]
      rw [alGet_jsAssign_not_hasKey _ _ hgk]
      rfl
    rw [jsGet, httpCore_headers_eq]
    by_cases hc : (truthy api.authorization
        && !truthy (jsGet (mergedPreAuth api cnf) "Authorization")) = true
    · rw [if_pos hc]
      by_cases hKAuth : K = "Authorization"
      · exfalso
        have hfa : truthy api.authorization = false := hKA hKAuth
        rw [hfa] at hc
        simp at hc
      · rw [alGet_alSet_ne _ _ _ _ (Ne.symm hKAuth), hm]
        rfl
    · rw [if_neg hc]
      rw [hm]
      rfl

/-- C6 witness: removal of a concrete key from concrete globals, and its
absence from a subsequent dispatched configuration. -/
theorem C6_headerRemoval_witness :
    jsGet (headersMerge (headersMerge [("A", JSVal.str "1")]
      [("K", JSVal.str "v")]) [("K", JSVal.null)]) "K" = JSVal.undefined ∧
    jsGet (httpCore apiC6 epC6 cnfEmptyHdrs .undefined).headers "K"
      = JSVal.undefined :=
  ⟨(C6_headerRemoval [("A", JSVal.str "1")] [] [] "K" (JSVal.str "v") apiC6
      epC6 cnfEmptyHdrs .undefined (by decide)).2.1,
    (C6_headerRemoval [] [] [] "K" (JSVal.str "v") apiC6 epC6 cnfEmptyHdrs
      .undefined (by decide)).2.2 (by decide) rfl (by decide) (by decide)
      (by decide)⟩

/-- C4 (amended): when two distinct raw names normalize to the same
camelCase accessor key, the second registration silently overwrites the
accessor with a fresh Endpoint for the second name (last wins), as long as
the second raw name is not itself a truthy property of the client at that
point (it would then be skipped by the raw-name dupe check). -/
theorem C4_lastWins (s : GRest) (n1 n2 : String)
    (h12 : camelCase n1 = camelCase n2)
    (h1 : GRest.hasTruthyProp s n1 = false)
    (h2 : GRest.hasTruthyProp (GRest.endpointsSet s [n1]) n2 = false) :
    alGet (GRest.endpointsSet (GRest.endpointsSet s [n1]) [n2]).props
        (camelCase n1) =
      some ⟨s.nextId + 1, n2, s.url ++ n2 ++ "/"⟩ := by
  have h1' : GRest.hasTruthyProp
      { s with _endpoints := dedupConcat s._endpoints [n1] } n1 = false := h1
  have e1 : GRest.endpointsSet s [n1] =
      { s with
        _endpoints := dedupConcat s._endpoints [n1]
        props := alSet s.props (camelCase n1)
          ⟨s.nextId, n1, s.url ++ n1 ++ "/"⟩
        nextId := s.nextId + 1 } := by
    simp only [GRest.endpointsSet, List.foldl]
    rw [h1']
    simp
  rw [e1] at h2 ⊢
  have h2' : GRest.hasTruthyProp
      { s with
        _endpoints := dedupConcat (dedupConcat s._endpoints [n1]) [n2]
        props := alSet s.props (camelCase n1)
          ⟨s.nextId, n1, s.url ++ n1 ++ "/"⟩
        nextId := s.nextId + 1 } n2 = false := h2
  simp only [GRest.endpointsSet, List.foldl]
  rw [h2']
  simp [h12, alGet_alSet_same]

/-- C4 witness: the amended statement at the concrete pair "users", "USERS"
on a fresh client. -/
theorem C4_lastWins_witness :
    alGet (GRest.endpointsSet (GRest.endpointsSet apiNet ["users"])
        ["USERS"]).props (camelCase "users") =
      some ⟨apiNet.nextId + 1, "USERS", apiNet.url ++ "USERS" ++ "/"⟩ :=
  C4_lastWins apiNet "users" "USERS" (by decide) (by decide) (by decide)
